import Mathlib

/-!
Shallow embedding of the core logic of the Zoho Attendance browser
extension (content-script detection chain, shared click helper, popup
manual trigger, and background scheduler).  Pure JS functions become Lean
functions; DOM state becomes an explicit `Dom` value; browser effects
(alarm create/clear, messages sent) become explicit traces returned by
the functions.  Timestamps are milliseconds since the epoch as `Nat`,
matching `Date.getTime()` in a fixed (UTC-like) timezone.
-/

namespace ZohoAttendance

/-- JS string truthiness chain `a || b`: the first operand when it is a
non-empty string, otherwise the second.  Used to embed expressions such
as `element.textContent || element.value || element.title || ''`. -/
def jsOr (a b : String) : String := if a = "" then b else a

/-- `matchFront n h` is true when the character list `n` is an initial
segment of `h`.  Helper for the substring test below. -/
def matchFront : List Char → List Char → Bool
  | [], _ => true
  | _ :: _, [] => false
  | a :: as, b :: bs => a = b && matchFront as bs

/-- `containsFrom n h` is true when `n` occurs as a contiguous run
somewhere in `h`. -/
def containsFrom (n : List Char) : List Char → Bool
  | [] => matchFront n []
  | c :: rest => matchFront n (c :: rest) || containsFrom n rest

/-- Embedding of JS `hay.includes(needle)` (also of the CSS `*=`
attribute operator): substring containment. -/
def strContains (hay needle : String) : Bool :=
  containsFrom needle.toList hay.toList

/-- ASCII lower-casing of one character, as `toLowerCase` acts on the
ASCII range that all keywords of this extension live in. -/
def lowerChar (c : Char) : Char :=
  if 'A' ≤ c && c ≤ 'Z' then Char.ofNat (c.toNat + 32) else c

/-- Embedding of JS `s.toLowerCase()` over the ASCII range. -/
def strLower (s : String) : String := String.mk (s.toList.map lowerChar)

/-- Splits a character list at a separator character; helper for the
class-attribute token list. -/
def splitCharsAux (sep : Char) : List Char → List Char → List (List Char)
  | [], acc => [acc.reverse]
  | c :: rest, acc =>
    if c = sep then acc.reverse :: splitCharsAux sep rest []
    else splitCharsAux sep rest (c :: acc)

/-- The whitespace-separated tokens of a `class` attribute value, as the
CSS class selector `.name` consults them. -/
def classTokens (s : String) : List String :=
  (splitCharsAux ' ' s.toList []).map String.mk

/-- A DOM element, carrying exactly the attributes, computed style and
ancestry data that the extension code reads. -/
structure Element where
  tag : String
  typeAttr : String
  textContent : String
  value : String
  title : String
  ariaLabel : String
  ariaLabelledby : String
  className : String
  idAttr : String
  dataAction : String
  ancestorClassNames : List String
  ancestorIds : List String
  display : String
  visibility : String
  opacity : String
  disabled : Bool
  deriving DecidableEq, Repr

/-- A `<form>` element: its aggregate text content and the form controls
inside it, in document order. -/
structure Form where
  textContent : String
  controls : List Element
  deriving DecidableEq, Repr

/-- The page state the content script reads: all elements in document
order, all forms in document order, and the global (window) functions
with the outcome a call to each would have (`true` = returns normally,
`false` = throws). -/
structure Dom where
  elements : List Element
  forms : List Form
  globalFns : List (String × Bool)
  deriving DecidableEq, Repr

/-- `ZohoAttendanceShared.isElementClickable`: laid out, visible, with
non-zero opacity, and not disabled. -/
def isElementClickable (e : Element) : Bool :=
  e.display ≠ "none" && e.visibility ≠ "hidden" && e.opacity ≠ "0" && !e.disabled

/-- `ZohoAttendanceShared.attendanceSelectors`: the fixed selector list
scanned by strategy 1, verbatim from the source. -/
def attendanceSelectors : List String :=
  ["[data-action=\"checkin\"]",
   "[data-action=\"checkout\"]",
   "button[title*=\"Check In\"]",
   "button[title*=\"Check Out\"]",
   "button[title*=\"Punch In\"]",
   "button[title*=\"Punch Out\"]",
   ".attendance-btn",
   ".checkin-btn",
   ".checkout-btn",
   ".punch-btn",
   "input[value*=\"Check In\"]",
   "input[value*=\"Check Out\"]",
   "input[value*=\"Punch In\"]",
   "input[value*=\"Punch Out\"]",
   "button:contains(\"Check In\")",
   "button:contains(\"Check Out\")",
   "button:contains(\"Punch In\")",
   "button:contains(\"Punch Out\")",
   "a:contains(\"Check In\")",
   "a:contains(\"Check Out\")",
   ".zpd-attendance button",
   ".attendance-widget button",
   ".attendance-panel button",
   "#attendance button",
   ".quick-actions button"]

/-- Whether one class token is present in the class attribute. -/
def hasClass (e : Element) (c : String) : Bool := (classTokens e.className).contains c

/-- Whether some ancestor of the element carries the given class token. -/
def ancestorHasClass (e : Element) (c : String) : Bool :=
  e.ancestorClassNames.any (fun cl => (classTokens cl).contains c)

/-- CSS validity of one entry of `attendanceSelectors`: the six
`:contains(...)` entries are not CSS, and `document.querySelectorAll`
throws a SyntaxError on them (aborting strategy 1 at that point); the
remaining entries are valid. -/
def selectorValid (sel : String) : Bool := !strContains sel ":contains"

/-- The meaning of each valid entry of `attendanceSelectors` on one
element, matching browser CSS semantics for those selector strings
(attribute equality, `*=` substring, class token, descendant of a
classed or id-ed container). -/
def matchesSelector (e : Element) (sel : String) : Bool :=
  if sel = "[data-action=\"checkin\"]" then e.dataAction = "checkin"
  else if sel = "[data-action=\"checkout\"]" then e.dataAction = "checkout"
  else if sel = "button[title*=\"Check In\"]" then e.tag = "button" && strContains e.title "Check In"
  else if sel = "button[title*=\"Check Out\"]" then e.tag = "button" && strContains e.title "Check Out"
  else if sel = "button[title*=\"Punch In\"]" then e.tag = "button" && strContains e.title "Punch In"
  else if sel = "button[title*=\"Punch Out\"]" then e.tag = "button" && strContains e.title "Punch Out"
  else if sel = ".attendance-btn" then hasClass e "attendance-btn"
  else if sel = ".checkin-btn" then hasClass e "checkin-btn"
  else if sel = ".checkout-btn" then hasClass e "checkout-btn"
  else if sel = ".punch-btn" then hasClass e "punch-btn"
  else if sel = "input[value*=\"Check In\"]" then e.tag = "input" && strContains e.value "Check In"
  else if sel = "input[value*=\"Check Out\"]" then e.tag = "input" && strContains e.value "Check Out"
  else if sel = "input[value*=\"Punch In\"]" then e.tag = "input" && strContains e.value "Punch In"
  else if sel = "input[value*=\"Punch Out\"]" then e.tag = "input" && strContains e.value "Punch Out"
  else if sel = ".zpd-attendance button" then e.tag = "button" && ancestorHasClass e "zpd-attendance"
  else if sel = ".attendance-widget button" then e.tag = "button" && ancestorHasClass e "attendance-widget"
  else if sel = ".attendance-panel button" then e.tag = "button" && ancestorHasClass e "attendance-panel"
  else if sel = "#attendance button" then e.tag = "button" && e.ancestorIds.contains "attendance"
  else if sel = ".quick-actions button" then e.tag = "button" && ancestorHasClass e "quick-actions"
  else false

/-- The check-in keyword list of `findAndClickBySelector`. -/
def checkinKeywords : List String :=
  ["check in", "checkin", "punch in", "punchin", "start work", "clock in"]

/-- The check-out keyword list of `findAndClickBySelector`. -/
def checkoutKeywords : List String :=
  ["check out", "checkout", "punch out", "punchout", "end work", "clock out"]

/-- The ternary `type === checkin ? checkinKeywords : checkoutKeywords`
of `findAndClickBySelector`. -/
def keywordsFor (ty : String) : List String :=
  if ty = "checkin" then checkinKeywords else checkoutKeywords

/-- The text an element is searched in by strategy 1:
`(element.textContent || element.value || element.title || '').toLowerCase()`. -/
def elemSearchText (e : Element) : String :=
  strLower (jsOr e.textContent (jsOr e.value e.title))

/-- Whether strategy 1 sees one of the intent keywords in the element. -/
def hasIntentKeyword (kws : List String) (e : Element) : Bool :=
  kws.any (fun k => strContains (elemSearchText e) k)

/-- The outcome of one successful strategy: the element handed to
`clickElement` (none for the global-function path of strategy 5), the
`method` field of the result object, and its strategy-specific detail
field (`element`, `text`, `label`, `button` or `function`). -/
structure Found where
  clicked : Option Element
  method : String
  detail : String
  deriving DecidableEq, Repr

/-- The inner double loop of `findAndClickBySelector` for one selector:
the first element matched by the selector, in document order, that has
an intent keyword and passes the clickability gate. -/
def selStep (kws : List String) (sel : String) (dom : Dom) : Option Element :=
  (dom.elements.filter (fun e => matchesSelector e sel)).find?
    (fun e => hasIntentKeyword kws e && isElementClickable e)

/-- The selector loop of `findAndClickBySelector`.  An invalid
(`:contains`) selector makes `querySelectorAll` throw, which ends the
strategy as a failure; otherwise the first selector with a qualifying
element wins and that element is clicked. -/
def selAux (kws : List String) (dom : Dom) : List String → Option Found
  | [] => none
  | sel :: rest =>
    if selectorValid sel then
      match selStep kws sel dom with
      | some e => some ⟨some e, "selector", sel⟩
      | none => selAux kws dom rest
    else none

/-- `ZohoAttendanceBotChrome.findAndClickBySelector` (strategy 1).
A `none` result stands for the strategy throwing, which the chain in
`performAttendance` catches and treats as failure. -/
def findAndClickBySelector (ty : String) (dom : Dom) : Option Found :=
  selAux (keywordsFor ty) dom attendanceSelectors

/-- The search-text lists of `findAndClickByText` and its ternary. -/
def checkinSearchTexts : List String := ["Check In", "Punch In", "Clock In", "Start Work"]

/-- The check-out labels of `findAndClickByText`. -/
def checkoutSearchTexts : List String := ["Check Out", "Punch Out", "Clock Out", "End Work"]

/-- The ternary selecting the label list in `findAndClickByText`. -/
def searchTextsFor (ty : String) : List String :=
  if ty = "checkin" then checkinSearchTexts else checkoutSearchTexts

/-- The XPath union of `findAndClickByText` on one element: a button or
anchor whose text contains the label, or an input whose value equals it. -/
def xpathMatches (st : String) (e : Element) : Bool :=
  (e.tag = "button" && strContains e.textContent st) ||
  (e.tag = "input" && e.value = st) ||
  (e.tag = "a" && strContains e.textContent st)

/-- The label loop of `findAndClickByText`: only the first XPath match
of each label is examined; if it is missing or not clickable the loop
moves to the next label. -/
def textAux (dom : Dom) : List String → Option Found
  | [] => none
  | st :: rest =>
    match dom.elements.find? (xpathMatches st) with
    | some e => if isElementClickable e then some ⟨some e, "text", st⟩ else textAux dom rest
    | none => textAux dom rest

/-- `ZohoAttendanceBotChrome.findAndClickByText` (strategy 2). -/
def findAndClickByText (ty : String) (dom : Dom) : Option Found :=
  textAux dom (searchTextsFor ty)

/-- The ARIA label lists of `findAndClickByAria` and its ternary. -/
def checkinAriaLabels : List String := ["check in", "punch in", "clock in"]

/-- The check-out ARIA labels of `findAndClickByAria`. -/
def checkoutAriaLabels : List String := ["check out", "punch out", "clock out"]

/-- The ternary selecting the ARIA label list in `findAndClickByAria`. -/
def ariaLabelsFor (ty : String) : List String :=
  if ty = "checkin" then checkinAriaLabels else checkoutAriaLabels

/-- The selector `[aria-label*="L" i], [aria-labelledby*="L" i]` on one
element: case-insensitive substring on either attribute. -/
def ariaMatches (label : String) (e : Element) : Bool :=
  strContains (strLower e.ariaLabel) label || strContains (strLower e.ariaLabelledby) label

/-- The label loop of `findAndClickByAria`: only the first document
match per label is examined. -/
def ariaAux (dom : Dom) : List String → Option Found
  | [] => none
  | label :: rest =>
    match dom.elements.find? (ariaMatches label) with
    | some e => if isElementClickable e then some ⟨some e, "aria", label⟩ else ariaAux dom rest
    | none => ariaAux dom rest

/-- `ZohoAttendanceBotChrome.findAndClickByAria` (strategy 3). -/
def findAndClickByAria (ty : String) (dom : Dom) : Option Found :=
  ariaAux dom (ariaLabelsFor ty)

/-- The attendance-context test of `findAndClickByForm` on one form. -/
def isAttendanceForm (f : Form) : Bool :=
  ["attendance", "check", "punch", "clock"].any
    (fun k => strContains (strLower f.textContent) k)

/-- The control filter `button, input[type="submit"], input[type="button"]`
of `findAndClickByForm`. -/
def isFormControl (e : Element) : Bool :=
  e.tag = "button" || (e.tag = "input" && (e.typeAttr = "submit" || e.typeAttr = "button"))

/-- The direction test of `findAndClickByForm`:
`(button.textContent || button.value || '').toLowerCase()` must mention
in/start for check-in, out/end otherwise. -/
def buttonDirectionOk (ty : String) (e : Element) : Bool :=
  let t := strLower (jsOr e.textContent e.value)
  if ty = "checkin" then strContains t "in" || strContains t "start"
  else strContains t "out" || strContains t "end"

/-- The form loop of `findAndClickByForm`: within the first
attendance-like form holding a qualifying control, click the first such
control. -/
def formAux (dirOk : Element → Bool) : List Form → Option Found
  | [] => none
  | f :: rest =>
    if isAttendanceForm f then
      match (f.controls.filter isFormControl).find?
          (fun b => dirOk b && isElementClickable b) with
      | some b => some ⟨some b, "form", strLower (jsOr b.textContent b.value)⟩
      | none => formAux dirOk rest
    else formAux dirOk rest

/-- `ZohoAttendanceBotChrome.findAndClickByForm` (strategy 4). -/
def findAndClickByForm (ty : String) (dom : Dom) : Option Found :=
  formAux (buttonDirectionOk ty) dom.forms

/-- The well-known global function names probed by strategy 5. -/
def possibleFunctions : List String :=
  ["checkIn", "checkOut", "punchIn", "punchOut",
   "markAttendance", "recordAttendance", "submitAttendance"]

/-- `typeof window[name] === function` plus the outcome of calling it. -/
def lookupFn (dom : Dom) (name : String) : Option Bool :=
  (dom.globalFns.find? (fun p => p.1 = name)).map (fun p => p.2)

/-- The function-probing loop of `findAndClickByAPI`: a defined function
whose call returns normally wins; a throwing call is logged and the loop
continues. -/
def apiFnAux (dom : Dom) : List String → Option Found
  | [] => none
  | f :: rest =>
    match lookupFn dom f with
    | some true => some ⟨none, "api", f⟩
    | some false => apiFnAux dom rest
    | none => apiFnAux dom rest

/-- The `[class*="attendance"], [id*="attendance"]` fallback filter of
`findAndClickByAPI`. -/
def attendanceAttrElem (e : Element) : Bool :=
  strContains e.className "attendance" || strContains e.idAttr "attendance"

/-- `ZohoAttendanceBotChrome.findAndClickByAPI` (strategy 5).  Note the
`type` parameter is unused in the source as well. -/
def findAndClickByAPI (_ty : String) (dom : Dom) : Option Found :=
  match apiFnAux dom possibleFunctions with
  | some r => some r
  | none =>
    ((dom.elements.filter attendanceAttrElem).find? isElementClickable).map
      (fun e => ⟨some e, "api", "attendance element"⟩)

/-- The strategy array built by `performAttendance`, in source order. -/
def chainStrategies (ty : String) : List (Dom → Option Found) :=
  [findAndClickBySelector ty, findAndClickByText ty, findAndClickByAria ty,
   findAndClickByForm ty, findAndClickByAPI ty]

/-- The `for (const strategy of strategies)` loop of `performAttendance`:
first success wins, a failing or throwing strategy falls through to the
next one. -/
def runChain {α β : Type} : List (α → Option β) → α → Option β
  | [], _ => none
  | s :: rest, a =>
    match s a with
    | some r => some r
    | none => runChain rest a

/-- The indices (from offset `i`) of the strategies the loop consults:
each consulted strategy contributes its index once, and the loop stops
right after the first success. -/
def consultIdx {α β : Type} (i : Nat) : List (α → Option β) → α → List Nat
  | [], _ => []
  | s :: rest, a =>
    i :: (match s a with
          | some _ => []
          | none => consultIdx (i + 1) rest a)

/-- The consulted-strategy trace of one chain invocation, 0-based. -/
def consultTrace {α β : Type} (strats : List (α → Option β)) (a : α) : List Nat :=
  consultIdx 0 strats a

/-- The strategy at 0-based position `j` of a strategy list, applied to
the input; `none` both when the strategy fails and when `j` is out of
range. -/
def chainProbe {α β : Type} (strats : List (α → Option β)) (j : Nat) (a : α) : Option β :=
  match strats[j]? with
  | some s => s a
  | none => none

/-- The strategy at 0-based position `j` of the chain, applied to the
page. -/
def stratAt (ty : String) (j : Nat) (dom : Dom) : Option Found :=
  chainProbe (chainStrategies ty) j dom

/-- `ZohoAttendanceBotChrome.performAttendance`: run the five strategies
in order; if none succeeds, throw the could-not-find error. -/
def performAttendance (ty : String) (dom : Dom) : Except String Found :=
  match runChain (chainStrategies ty) dom with
  | some r => Except.ok r
  | none => Except.error ("Could not find " ++ ty ++ " button on this page")

/-- The request envelope `{action, type}` of the messaging contract. -/
structure Request where
  action : String
  ty : String
  deriving DecidableEq, Repr

/-- The response envelope: `sendResponse(result)` on success carries the
result object (success flag, method, detail); the catch branch carries
`{success:false, error}`. -/
structure MsgResponse where
  success : Bool
  method : Option String
  detail : Option String
  error : Option String
  deriving DecidableEq, Repr

/-- `ZohoAttendanceBotChrome.setupMessageListener`: answer a
`performAttendance` request with the chain result, or with the caught
error message; other actions get no response. -/
def handleMessage (req : Request) (dom : Dom) : Option MsgResponse :=
  if req.action = "performAttendance" then
    match performAttendance req.ty dom with
    | Except.ok r => some ⟨true, some r.method, some r.detail, none⟩
    | Except.error e => some ⟨false, none, none, some e⟩
  else none

/-- One observable step of `ZohoAttendanceShared.clickElement`, in the
order the source performs them. -/
inductive ClickStep where
  | scrollIntoView
  | sleep (ms : Nat)
  | applyMarker
  | focus
  | click
  | dispatch (eventType : String)
  | submitForm
  | revertMarker
  deriving DecidableEq, Repr

/-- The result of `clickElement`: its step trace and the style string the
element is left with (`element.style.cssText` after the restore). -/
structure ClickEff where
  steps : List ClickStep
  finalStyle : String
  deriving DecidableEq, Repr

/-- `ZohoAttendanceShared.clickElement` as a straight-line effect trace.
`inForm` is `element.closest(form) !== null`.  The embedding is a
single synchronous context, so no navigation can occur mid-sequence and
the style restore at the end always runs. -/
def clickElement (inForm : Bool) (originalStyle : String) : ClickEff :=
  let before : List ClickStep :=
    [ClickStep.scrollIntoView, ClickStep.sleep 500, ClickStep.applyMarker,
     ClickStep.focus, ClickStep.click,
     ClickStep.dispatch "mousedown", ClickStep.dispatch "mouseup",
     ClickStep.dispatch "click"]
  let submit : List ClickStep := if inForm then [ClickStep.submitForm] else []
  { steps := before ++ submit ++ [ClickStep.sleep 1000, ClickStep.revertMarker],
    finalStyle := originalStyle }

/-- A popup log entry `{message, type}` (the field `type` is `ty` here,
`type` being reserved in Lean). -/
structure PopupLogEntry where
  message : String
  ty : String
  deriving DecidableEq, Repr

/-- `AttendancePopup.addLog` on the stored list: unshift the new entry,
then `pop()` once when the length exceeds 10. -/
def popupAddLog (entry : PopupLogEntry) (logs : List PopupLogEntry) : List PopupLogEntry :=
  let l := entry :: logs
  if l.length > 10 then l.dropLast else l

/-- A persisted background log entry `{timestamp, message, type}`. -/
structure BgLogEntry where
  timestamp : String
  message : String
  ty : String
  deriving DecidableEq, Repr

/-- The list update inside `AttendanceSchedulerFirefox.log` (same in the
Chrome variant): unshift the new entry, then `splice(50)` keeps only the
first 50 entries. -/
def backgroundLogAppend (entry : BgLogEntry) (logs : List BgLogEntry) : List BgLogEntry :=
  let l := entry :: logs
  if l.length > 50 then l.take 50 else l

/-- Entry construction in the scheduler `log` method: the type is derived
from marker glyphs in the message. -/
def bgMakeEntry (timestamp message : String) : BgLogEntry :=
  ⟨timestamp, message,
   if strContains message "❌" then "error"
   else if strContains message "✅" then "success" else "info"⟩

/-- Milliseconds per day, the period of both daily alarms. -/
def msPerDay : Nat := 86400000

/-- Decimal digit reading for the embedding of JS `Number` on the digit
strings that `HH:MM` splitting produces. -/
def natOfChars : List Char → Option Nat
  | [] => none
  | cs =>
    cs.foldl
      (fun acc c =>
        match acc with
        | none => none
        | some n => if '0' ≤ c && c ≤ '9' then some (n * 10 + (c.toNat - 48)) else none)
      (some 0)

/-- `time.split(':').map(Number)` destructured to `[hours, minutes]`.
The scheduler only ever receives well-formed `HH:MM` strings (stored
defaults or the settings UI), on which this agrees with `Number`. -/
def parseHM (time : String) : Nat × Nat :=
  match (splitCharsAux ':' time.toList []).map String.mk with
  | [h, m] => ((natOfChars h.toList).getD 0, (natOfChars m.toList).getD 0)
  | _ => (0, 0)

/-- `scheduledTime.setHours(hours, minutes, 0, 0)` applied to the current
date: the occurrence of the configured time-of-day on the current day. -/
def todayOccurrence (time : String) (now : Nat) : Nat :=
  let hm := parseHM time
  now - now % msPerDay + (hm.1 * 60 + hm.2) * 60000

/-- The `when` timestamp computed by `createDailyAlarm` (Firefox and
Chrome variants are identical): the occurrence today, pushed to the next
day when it is not strictly in the future (`scheduledTime <= now`). -/
def createDailyAlarmWhen (time : String) (now : Nat) : Nat :=
  let sched := todayOccurrence time now
  if sched ≤ now then sched + msPerDay else sched

/-- One alarm-API operation issued by the scheduler. -/
inductive AlarmOp where
  | create (name : String) (whenMs : Nat)
  | clear (name : String)
  deriving DecidableEq, Repr

/-- The effect of a list of alarm operations on the set of armed alarms
(name, fire timestamp): create replaces any alarm of the same name,
clear removes it. -/
def applyAlarmOps (ops : List AlarmOp) (armed : List (String × Nat)) : List (String × Nat) :=
  ops.foldl
    (fun st op =>
      match op with
      | AlarmOp.create n w => (n, w) :: st.filter (fun p => p.1 ≠ n)
      | AlarmOp.clear n => st.filter (fun p => p.1 ≠ n))
    armed

/-- `AttendanceSchedulerFirefox.createDailyAlarm` as the alarm operation
it issues (`browser.alarms.create(name, {when, periodInMinutes: 1440})`). -/
def createDailyAlarmOp (name time : String) (now : Nat) : AlarmOp :=
  AlarmOp.create name (createDailyAlarmWhen time now)

/-- `AttendanceSchedulerFirefox.clearSchedule`: clear both named alarms. -/
def clearScheduleOps : List AlarmOp :=
  [AlarmOp.clear "checkin", AlarmOp.clear "checkout"]

/-- `AttendanceSchedulerFirefox.setupSchedule`: clear both alarms, then
create the two daily alarms. -/
def setupScheduleOps (checkinTime checkoutTime : String) (now : Nat) : List AlarmOp :=
  clearScheduleOps ++
    [createDailyAlarmOp "checkin" checkinTime now,
     createDailyAlarmOp "checkout" checkoutTime now]

/-- The persisted settings record read at startup. -/
structure Settings where
  autoSchedule : Bool
  checkinTime : String
  checkoutTime : String
  deriving DecidableEq, Repr

/-- `AttendanceSchedulerFirefox.loadSettings`, run at every scheduler
startup: when auto-schedule is on, rebuild both alarms from the stored
times-of-day; otherwise touch nothing. -/
def loadSettingsOps (s : Settings) (now : Nat) : List AlarmOp :=
  if s.autoSchedule then setupScheduleOps s.checkinTime s.checkoutTime now else []

/-- The alarms among the startup operations that would fire at once
under timer semantics (an alarm created with `when <= now` fires
immediately).  These are exactly the catch-up firings the startup could
produce. -/
def startupImmediateFires (s : Settings) (now : Nat) : List String :=
  (loadSettingsOps s now).filterMap
    (fun op =>
      match op with
      | AlarmOp.create n w => if w ≤ now then some n else none
      | AlarmOp.clear _ => none)

/-- A browser tab as the scheduler and popup see it. -/
structure Tab where
  id : Nat
  url : String
  deriving DecidableEq, Repr

/-- The environment one scheduled firing runs against: the result of
`tabs.query({url: people.zoho.com pattern})`, the outcome of
`tabs.create`, and the outcome of `tabs.sendMessage` per tab and intent
(an `Except.error` is a rejected send, `Option.none` an undefined
response). -/
structure SchedEnv where
  queryTabs : List Tab
  createTab : Except String Tab
  sendOutcome : Nat → String → Except String (Option MsgResponse)

/-- `AttendanceSchedulerFirefox.sendAttendanceMessage`: an unsuccessful
or missing response is thrown and the own catch block rewraps every
failure as a send failure. -/
def sendAttendanceMessage (env : SchedEnv) (tabId : Nat) (ty : String) :
    Except String MsgResponse :=
  match env.sendOutcome tabId ty with
  | Except.error e => Except.error ("Failed to send message: " ++ e)
  | Except.ok none => Except.error ("Failed to send message: Unknown error")
  | Except.ok (some r) =>
    if r.success then Except.ok r
    else Except.error ("Failed to send message: " ++ jsOr (r.error.getD "") "Unknown error")

/-- The try block of `performScheduledAttendance`: message an existing
matching tab, or create one (waiting for its load) and message it. -/
def performScheduledAttendanceBody (env : SchedEnv) (ty : String) :
    Except String MsgResponse :=
  match env.queryTabs with
  | [] =>
    match env.createTab with
    | Except.error e => Except.error e
    | Except.ok tab => sendAttendanceMessage env tab.id ty
  | tab :: _ => sendAttendanceMessage env tab.id ty

/-- The user-visible outcome of one scheduled firing: the success
notification, or the logged-and-notified failure of the catch block. -/
inductive SchedNotice where
  | success (ty : String)
  | failure (ty msg : String)
  deriving DecidableEq, Repr

/-- The full result of one scheduled firing: its notice and the alarm
operations it issued. -/
structure SchedResult where
  notice : SchedNotice
  alarmOps : List AlarmOp
  deriving Repr

/-- `AttendanceSchedulerFirefox.performScheduledAttendance` (the Chrome
variant is line-for-line the same logic): the whole body sits in a
try/catch whose catch only logs and notifies, and no alarm API call
appears anywhere in the function, so it issues no alarm operations. -/
def performScheduledAttendance (env : SchedEnv) (ty : String) : SchedResult :=
  match performScheduledAttendanceBody env ty with
  | Except.ok _ => ⟨SchedNotice.success ty, []⟩
  | Except.error e => ⟨SchedNotice.failure ty e, []⟩

/-- The popup-side outcome of a manual trigger: the success branch or
the caught error message. -/
inductive PopupResult where
  | success
  | failure (msg : String)
  deriving DecidableEq, Repr

/-- `AttendancePopup.performAttendanceAction`: on a non-Zoho tab the
guard throws before any message is sent; otherwise one
`performAttendance` message goes to the tab and the response decides the
outcome.  Returns the requests sent together with the result. -/
def performAttendanceAction (action : String) (tab : Tab)
    (respond : Request → Except String (Option MsgResponse)) :
    List Request × PopupResult :=
  if strContains tab.url "people.zoho.com" then
    let req : Request := ⟨"performAttendance", action⟩
    match respond req with
    | Except.error e => ([req], PopupResult.failure e)
    | Except.ok none => ([req], PopupResult.failure "Unknown error occurred")
    | Except.ok (some r) =>
      if r.success then ([req], PopupResult.success)
      else ([req], PopupResult.failure (jsOr (r.error.getD "") "Unknown error occurred"))
  else ([], PopupResult.failure "Please navigate to Zoho People first")

/-! ### Chain traversal lemmas -/

/-- If the strategies before position `k` all fail and the one at `k`
succeeds with `r`, the loop consults exactly positions `0..k` in order
and returns `r`. -/
lemma chain_first_success {α β : Type} :
    ∀ (strats : List (α → Option β)) (a : α) (k i : Nat) (r : β),
      (∀ j, j < k → chainProbe strats j a = none) →
      chainProbe strats k a = some r →
      consultIdx i strats a = List.range' i (k + 1) ∧ runChain strats a = some r := by
  intro strats
  induction strats with
  | nil => intro a k i r _ hk; simp [chainProbe] at hk
  | cons s rest ih =>
    intro a k i r hfail hk
    cases k with
    | zero =>
      have hs : s a = some r := by simpa [chainProbe] using hk
      exact ⟨by simp [consultIdx, hs, List.range'], by simp [runChain, hs]⟩
    | succ k =>
      have hs : s a = none := by
        have h0 := hfail 0 (Nat.succ_pos k)
        simpa [chainProbe] using h0
      have hfail2 : ∀ j, j < k → chainProbe rest j a = none := by
        intro j hj
        have hjj := hfail (j + 1) (Nat.succ_lt_succ hj)
        simpa [chainProbe] using hjj
      have hk2 : chainProbe rest k a = some r := by simpa [chainProbe] using hk
      obtain ⟨h1, h2⟩ := ih a k (i + 1) r hfail2 hk2
      refine ⟨?_, by simp [runChain, hs, h2]⟩
      simp [consultIdx, hs, h1, List.range'_succ]

/-- If every strategy fails, the loop consults every position exactly
once, in order, and returns nothing. -/
lemma chain_all_fail {α β : Type} :
    ∀ (strats : List (α → Option β)) (a : α) (i : Nat),
      (∀ j, j < strats.length → chainProbe strats j a = none) →
      consultIdx i strats a = List.range' i strats.length ∧ runChain strats a = none := by
  intro strats
  induction strats with
  | nil => intro a i _; simp [consultIdx, runChain, List.range']
  | cons s rest ih =>
    intro a i hfail
    have hs : s a = none := by
      have h0 := hfail 0 (Nat.succ_pos _)
      simpa [chainProbe] using h0
    have hfail2 : ∀ j, j < rest.length → chainProbe rest j a = none := by
      intro j hj
      have hjj := hfail (j + 1) (Nat.succ_lt_succ hj)
      simpa [chainProbe] using hjj
    obtain ⟨h1, h2⟩ := ih a (i + 1) hfail2
    refine ⟨?_, by simp [runChain, hs, h2]⟩
    simp [consultIdx, hs, h1, List.range'_succ]

/-- A successful chain result comes from a member strategy. -/
lemma runChain_mem {α β : Type} :
    ∀ (strats : List (α → Option β)) (a : α) (r : β),
      runChain strats a = some r → ∃ s, s ∈ strats ∧ s a = some r := by
  intro strats
  induction strats with
  | nil => intro a r h; simp [runChain] at h
  | cons s rest ih =>
    intro a r h
    cases hs : s a with
    | some r2 =>
      rw [runChain, hs] at h
      simp only [Option.some.injEq] at h
      exact ⟨s, List.mem_cons_self s rest, by rw [hs, h]⟩
    | none =>
      rw [runChain, hs] at h
      obtain ⟨s2, hmem, hs2⟩ := ih a r h
      exact ⟨s2, List.mem_cons_of_mem s hmem, hs2⟩

/-- C1: For every intent, one invocation of the detection chain
(`performAttendance`) runs the five strategies in the fixed priority
order selector, text, aria, form, api; if strategy `k` succeeds,
strategies before it were each consulted and failed first, in order, and
no strategy after `k` runs: the consulted trace is exactly positions
`0..k` and the chain reports the success of strategy `k`. -/
theorem chain_fixed_priority_first_success (ty : String) (dom : Dom) (k : Nat) (r : Found)
    (hfail : ∀ j, j < k → stratAt ty j dom = none)
    (hsucc : stratAt ty k dom = some r) :
    consultTrace (chainStrategies ty) dom = List.range (k + 1) ∧
    performAttendance ty dom = Except.ok r := by
  obtain ⟨h1, h2⟩ :=
    chain_first_success (chainStrategies ty) dom k 0 r hfail hsucc
  refine ⟨?_, by simp [performAttendance, h2]⟩
  rw [consultTrace, h1, List.range_eq_range']

/-- A page on which the selector strategy finds nothing but the text
strategy finds a clickable Punch In button. -/
def c1Button : Element :=
  { tag := "button", typeAttr := "", textContent := "Punch In", value := "", title := "",
    ariaLabel := "", ariaLabelledby := "", className := "", idAttr := "", dataAction := "",
    ancestorClassNames := [], ancestorIds := [], display := "block",
    visibility := "visible", opacity := "1", disabled := false }

/-- The single-button page used to witness the chain ordering. -/
def c1Dom : Dom := { elements := [c1Button], forms := [], globalFns := [] }

/-- Witness for C1: on `c1Dom`, the selector strategy fails, the text
strategy succeeds, the consulted trace is `[0, 1]` and the chain reports
the text result. -/
theorem chain_fixed_priority_first_success_witness :
    consultTrace (chainStrategies "checkin") c1Dom = List.range 2 ∧
    performAttendance "checkin" c1Dom = Except.ok ⟨some c1Button, "text", "Punch In"⟩ :=
  chain_fixed_priority_first_success "checkin" c1Dom 1 ⟨some c1Button, "text", "Punch In"⟩
    (by decide) (by decide)

/-- C2: For every intent, if no strategy locates a matching element, the
chain fails after every one of the five strategies has been consulted
exactly once, and the message listener answers the `performAttendance`
request with `{success:false, error:"Could not find <intent> button on
this page"}`. -/
theorem chain_exhaustion_not_found (ty : String) (dom : Dom)
    (hfail : ∀ j, j < 5 → stratAt ty j dom = none) :
    consultTrace (chainStrategies ty) dom = List.range 5 ∧
    performAttendance ty dom =
      Except.error ("Could not find " ++ ty ++ " button on this page") ∧
    handleMessage ⟨"performAttendance", ty⟩ dom =
      some ⟨false, none, none, some ("Could not find " ++ ty ++ " button on this page")⟩ := by
  have hlen : (chainStrategies ty).length = 5 := rfl
  obtain ⟨h1, h2⟩ :=
    chain_all_fail (chainStrategies ty) dom 0 (by rw [hlen]; exact hfail)
  have herr : performAttendance ty dom =
      Except.error ("Could not find " ++ ty ++ " button on this page") := by
    simp [performAttendance, h2]
  refine ⟨?_, herr, ?_⟩
  · rw [consultTrace, h1, hlen, List.range_eq_range']
  · simp [handleMessage, herr]

/-- A page with no elements, no forms and no global hooks. -/
def emptyDom : Dom := { elements := [], forms := [], globalFns := [] }

/-- Witness for C2: intent check-out against the empty page exhausts all
five strategies and the listener answers with the exact error text. -/
theorem chain_exhaustion_not_found_witness :
    consultTrace (chainStrategies "checkout") emptyDom = List.range 5 ∧
    performAttendance "checkout" emptyDom =
      Except.error "Could not find checkout button on this page" ∧
    handleMessage ⟨"performAttendance", "checkout"⟩ emptyDom =
      some ⟨false, none, none, some "Could not find checkout button on this page"⟩ :=
  chain_exhaustion_not_found "checkout" emptyDom (by decide)

/-! ### Clickability gating (per-strategy lemmas) -/

/-- Strategy 1 only ever clicks an element that passed the clickability
gate. -/
lemma selAux_clicked_clickable (kws : List String) (dom : Dom) :
    ∀ (sels : List String) (r : Found) (e : Element),
      selAux kws dom sels = some r → r.clicked = some e → isElementClickable e = true := by
  intro sels
  induction sels with
  | nil => intro r e h _; simp [selAux] at h
  | cons sel rest ih =>
    intro r e h he
    rw [selAux] at h
    by_cases hv : selectorValid sel = true
    · rw [if_pos hv] at h
      cases hs : selStep kws sel dom with
      | some el =>
        rw [hs] at h
        simp only [Option.some.injEq] at h
        subst h
        simp only [Option.some.injEq] at he
        subst he
        have hp := List.find?_some hs
        simp only [Bool.and_eq_true] at hp
        exact hp.2
      | none =>
        rw [hs] at h
        exact ih r e h he
    · rw [if_neg hv] at h
      exact absurd h (by simp)

/-- Strategy 2 only ever clicks an element that passed the clickability
gate. -/
lemma textAux_clicked_clickable (dom : Dom) :
    ∀ (ts : List String) (r : Found) (e : Element),
      textAux dom ts = some r → r.clicked = some e → isElementClickable e = true := by
  intro ts
  induction ts with
  | nil => intro r e h _; simp [textAux] at h
  | cons st rest ih =>
    intro r e h he
    rw [textAux] at h
    split at h
    · split at h
      · rename_i el hf hc
        simp only [Option.some.injEq] at h
        subst h
        simp only [Option.some.injEq] at he
        subst he
        exact hc
      · exact ih r e h he
    · exact ih r e h he

/-- Strategy 3 only ever clicks an element that passed the clickability
gate. -/
lemma ariaAux_clicked_clickable (dom : Dom) :
    ∀ (ls : List String) (r : Found) (e : Element),
      ariaAux dom ls = some r → r.clicked = some e → isElementClickable e = true := by
  intro ls
  induction ls with
  | nil => intro r e h _; simp [ariaAux] at h
  | cons label rest ih =>
    intro r e h he
    rw [ariaAux] at h
    split at h
    · split at h
      · rename_i el hf hc
        simp only [Option.some.injEq] at h
        subst h
        simp only [Option.some.injEq] at he
        subst he
        exact hc
      · exact ih r e h he
    · exact ih r e h he

/-- Strategy 4 only ever clicks an element that passed the clickability
gate. -/
lemma formAux_clicked_clickable (dirOk : Element → Bool) :
    ∀ (fs : List Form) (r : Found) (e : Element),
      formAux dirOk fs = some r → r.clicked = some e → isElementClickable e = true := by
  intro fs
  induction fs with
  | nil => intro r e h _; simp [formAux] at h
  | cons f rest ih =>
    intro r e h he
    rw [formAux] at h
    by_cases ha : isAttendanceForm f = true
    · rw [if_pos ha] at h
      cases hf : (f.controls.filter isFormControl).find?
          (fun b => dirOk b && isElementClickable b) with
      | some b =>
        rw [hf] at h
        simp only [Option.some.injEq] at h
        subst h
        simp only [Option.some.injEq] at he
        subst he
        have hp := List.find?_some hf
        simp only [Bool.and_eq_true] at hp
        exact hp.2
      | none =>
        rw [hf] at h
        exact ih r e h he
    · rw [if_neg ha] at h
      exact ih r e h he

/-- The global-function path of strategy 5 clicks nothing. -/
lemma apiFnAux_clicked_none (dom : Dom) :
    ∀ (fns : List String) (r : Found),
      apiFnAux dom fns = some r → r.clicked = none := by
  intro fns
  induction fns with
  | nil => intro r h; simp [apiFnAux] at h
  | cons f rest ih =>
    intro r h
    rw [apiFnAux] at h
    cases hf : lookupFn dom f with
    | some b =>
      rw [hf] at h
      cases b with
      | true =>
        simp only [Option.some.injEq] at h
        subst h
        rfl
      | false => exact ih r h
    | none =>
      rw [hf] at h
      exact ih r h

/-- Strategy 5 only ever clicks an element that passed the clickability
gate. -/
lemma api_clicked_clickable (ty : String) (dom : Dom) (r : Found) (e : Element)
    (h : findAndClickByAPI ty dom = some r) (he : r.clicked = some e) :
    isElementClickable e = true := by
  rw [findAndClickByAPI] at h
  split at h
  · rename_i r2 hf
    simp only [Option.some.injEq] at h
    subst h
    have hn := apiFnAux_clicked_none dom possibleFunctions r2 hf
    rw [hn] at he
    exact absurd he (by simp)
  · cases hg : (dom.elements.filter attendanceAttrElem).find? isElementClickable with
    | some el =>
      rw [hg] at h
      simp only [Option.map] at h
      simp only [Option.some.injEq] at h
      subst h
      simp only [Option.some.injEq] at he
      subst he
      exact List.find?_some hg
    | none =>
      rw [hg] at h
      simp at h

/-- C5: For every DOM state and every intent, no strategy of the chain
ever activates an element that fails the clickability predicate: every
element `performAttendance` clicks satisfies `isElementClickable`. -/
theorem chain_clicks_only_clickable (ty : String) (dom : Dom) (r : Found) (e : Element)
    (h : performAttendance ty dom = Except.ok r) (he : r.clicked = some e) :
    isElementClickable e = true := by
  have hr : runChain (chainStrategies ty) dom = some r := by
    cases hrc : runChain (chainStrategies ty) dom with
    | some r2 =>
      rw [performAttendance, hrc] at h
      simp only [Except.ok.injEq] at h
      rw [h]
    | none =>
      rw [performAttendance, hrc] at h
      simp at h
  obtain ⟨s, hmem, hs⟩ := runChain_mem (chainStrategies ty) dom r hr
  simp only [chainStrategies, List.mem_cons, List.not_mem_nil, or_false] at hmem
  rcases hmem with h1 | h2 | h3 | h4 | h5
  · subst h1
    rw [findAndClickBySelector] at hs
    exact selAux_clicked_clickable (keywordsFor ty) dom attendanceSelectors r e hs he
  · subst h2
    rw [findAndClickByText] at hs
    exact textAux_clicked_clickable dom (searchTextsFor ty) r e hs he
  · subst h3
    rw [findAndClickByAria] at hs
    exact ariaAux_clicked_clickable dom (ariaLabelsFor ty) r e hs he
  · subst h4
    rw [findAndClickByForm] at hs
    exact formAux_clicked_clickable (buttonDirectionOk ty) dom.forms r e hs he
  · subst h5
    exact api_clicked_clickable ty dom r e hs he

/-- Witness for C5 at a concrete page: the chain clicks the Punch In
button of `c1Dom` and that element indeed passes the clickability gate. -/
theorem chain_clicks_only_clickable_witness :
    performAttendance "checkin" c1Dom = Except.ok ⟨some c1Button, "text", "Punch In"⟩ ∧
    isElementClickable c1Button = true :=
  ⟨by rfl,
   chain_clicks_only_clickable "checkin" c1Dom ⟨some c1Button, "text", "Punch In"⟩ c1Button
     (by rfl) rfl⟩

/-! ### Intent dispatch on unrecognized type strings -/

/-- C9: For every request type value that is not exactly the string
`checkin`, every strategy of the detection chain uses the check-out
keyword and label sets, and the whole chain is the same strategy list as
for `checkout`: any unrecognized intent string is processed identically
to check-out. -/
theorem unrecognized_intent_is_checkout (ty : String) (h : ty ≠ "checkin") :
    keywordsFor ty = checkoutKeywords ∧
    searchTextsFor ty = checkoutSearchTexts ∧
    ariaLabelsFor ty = checkoutAriaLabels ∧
    buttonDirectionOk ty = buttonDirectionOk "checkout" ∧
    chainStrategies ty = chainStrategies "checkout" := by
  have hk : keywordsFor ty = checkoutKeywords := by simp [keywordsFor, h]
  have hs : searchTextsFor ty = checkoutSearchTexts := by simp [searchTextsFor, h]
  have ha : ariaLabelsFor ty = checkoutAriaLabels := by simp [ariaLabelsFor, h]
  have hb : buttonDirectionOk ty = buttonDirectionOk "checkout" := by
    funext e; simp [buttonDirectionOk, h]
  have hk0 : keywordsFor "checkout" = checkoutKeywords := rfl
  have hs0 : searchTextsFor "checkout" = checkoutSearchTexts := rfl
  have ha0 : ariaLabelsFor "checkout" = checkoutAriaLabels := rfl
  refine ⟨hk, hs, ha, hb, ?_⟩
  have h1 : findAndClickBySelector ty = findAndClickBySelector "checkout" := by
    funext dom
    rw [findAndClickBySelector, findAndClickBySelector, hk, hk0]
  have h2 : findAndClickByText ty = findAndClickByText "checkout" := by
    funext dom
    rw [findAndClickByText, findAndClickByText, hs, hs0]
  have h3 : findAndClickByAria ty = findAndClickByAria "checkout" := by
    funext dom
    rw [findAndClickByAria, findAndClickByAria, ha, ha0]
  have h4 : findAndClickByForm ty = findAndClickByForm "checkout" := by
    funext dom
    rw [findAndClickByForm, findAndClickByForm, hb]
  have h5 : findAndClickByAPI ty = findAndClickByAPI "checkout" := rfl
  rw [chainStrategies, chainStrategies, h1, h2, h3, h4, h5]

/-- Witness for C9 at the concrete unrecognized intent string `punchit`. -/
theorem unrecognized_intent_is_checkout_witness :
    keywordsFor "punchit" = checkoutKeywords ∧
    chainStrategies "punchit" = chainStrategies "checkout" :=
  ⟨(unrecognized_intent_is_checkout "punchit" (by decide)).1,
   (unrecognized_intent_is_checkout "punchit" (by decide)).2.2.2.2⟩

/-! ### Activation sequence -/

/-- C6: For every located element, the activation sequence performs
exactly: scroll into centered view then settle 500ms; apply the
temporary visual marker; focus then programmatic click; dispatch the
mousedown/mouseup/click triad; if the element is inside a form, submit
it; and 1000ms later revert the marker, leaving the element with its
original style.  (The embedding is a single synchronous context, so the
spec guard about navigation is vacuously satisfied and the revert is
unconditional.) -/
theorem clickElement_sequence (inForm : Bool) (originalStyle : String) :
    clickElement inForm originalStyle =
      { steps :=
          [ClickStep.scrollIntoView, ClickStep.sleep 500, ClickStep.applyMarker,
           ClickStep.focus, ClickStep.click, ClickStep.dispatch "mousedown",
           ClickStep.dispatch "mouseup", ClickStep.dispatch "click"] ++
          (if inForm then [ClickStep.submitForm] else []) ++
          [ClickStep.sleep 1000, ClickStep.revertMarker],
        finalStyle := originalStyle } := by
  cases inForm <;> rfl

/-! ### Bounded logs -/

/-- C8: Appending to either log prepends the entry and truncates past
the fixed capacity (10 for the popup log, 50 for the persisted
background log) by dropping the oldest entries; appending an 11th entry
to a full capacity-10 log drops the oldest entry, leaving exactly the 10
most recent in reverse-chronological order. -/
theorem log_append_caps (entry : PopupLogEntry) (logs : List PopupLogEntry)
    (bentry : BgLogEntry) (blogs : List BgLogEntry)
    (h10 : logs.length ≤ 10) (h50 : blogs.length ≤ 50) :
    popupAddLog entry logs = (entry :: logs).take 10 ∧
    backgroundLogAppend bentry blogs = (bentry :: blogs).take 50 ∧
    (logs.length = 10 →
      popupAddLog entry logs = entry :: logs.dropLast ∧
      (popupAddLog entry logs).length = 10) := by
  have hp : popupAddLog entry logs = (entry :: logs).take 10 := by
    rw [popupAddLog]
    split
    · rename_i hgt
      rw [List.dropLast_eq_take]
      congr 1
      simp only [List.length_cons] at hgt ⊢
      omega
    · rename_i hle
      rw [List.take_of_length_le]
      simp only [List.length_cons] at hle ⊢
      omega
  have hb : backgroundLogAppend bentry blogs = (bentry :: blogs).take 50 := by
    rw [backgroundLogAppend]
    split
    · rfl
    · rename_i hle
      rw [List.take_of_length_le]
      simp only [List.length_cons] at hle ⊢
      omega
  refine ⟨hp, hb, ?_⟩
  intro hfull
  have hne : logs ≠ [] := by
    intro hnil
    rw [hnil] at hfull
    simp at hfull
  constructor
  · have hd : (entry :: logs).dropLast = entry :: logs.dropLast :=
      List.dropLast_cons_of_ne_nil hne
    rw [popupAddLog, if_pos (by simp [hfull]), hd]
  · rw [hp]
    rw [List.length_take]
    simp [hfull]

/-- A full capacity-10 popup log, most recent first. -/
def c8Logs : List PopupLogEntry :=
  [⟨"m10", "info"⟩, ⟨"m9", "info"⟩, ⟨"m8", "info"⟩, ⟨"m7", "info"⟩, ⟨"m6", "info"⟩,
   ⟨"m5", "info"⟩, ⟨"m4", "info"⟩, ⟨"m3", "info"⟩, ⟨"m2", "info"⟩, ⟨"m1", "info"⟩]

/-- Witness for C8: appending an 11th entry to the full `c8Logs` keeps
the 10 most recent entries, dropping the oldest. -/
theorem log_append_caps_witness :
    popupAddLog ⟨"m11", "info"⟩ c8Logs = ⟨"m11", "info"⟩ :: c8Logs.dropLast ∧
    (popupAddLog ⟨"m11", "info"⟩ c8Logs).length = 10 :=
  (log_append_caps ⟨"m11", "info"⟩ c8Logs ⟨"t", "m", "info"⟩ [] (by decide) (by decide)).2.2
    (by decide)

/-! ### Daily alarm arithmetic -/

/-- The alarm timestamp `createDailyAlarm` computes is always strictly
in the future: an occurrence of the configured time-of-day that is not
strictly in the future is pushed to the next day. -/
lemma now_lt_createDailyAlarmWhen (time : String) (now : Nat) :
    now < createDailyAlarmWhen time now := by
  have h1 : now % msPerDay < msPerDay := Nat.mod_lt _ (by norm_num [msPerDay])
  have h2 : now % msPerDay ≤ now := Nat.mod_le now msPerDay
  rw [createDailyAlarmWhen, todayOccurrence]
  split
  · omega
  · omega

/-- C4: For every time-of-day string and every current wall-clock time,
enabling a schedule computes the next fire time as the occurrence today
of that time-of-day when that instant is still strictly in the future,
and otherwise the occurrence tomorrow; in particular enabling with
check-in time `09:00` at current time 10:00 (of day 0) yields tomorrow
09:00 (118800000 ms), not today 09:00 (32400000 ms). -/
theorem enable_computes_next_occurrence (time : String) (now : Nat) :
    createDailyAlarmWhen time now =
      (if now < todayOccurrence time now then todayOccurrence time now
       else todayOccurrence time now + msPerDay) ∧
    todayOccurrence "09:00" 36000000 = 32400000 ∧
    createDailyAlarmWhen "09:00" 36000000 = 118800000 := by
  refine ⟨?_, by decide, by decide⟩
  rw [createDailyAlarmWhen]
  rcases Nat.lt_or_ge now (todayOccurrence time now) with hlt | hge
  · rw [if_neg (by omega), if_pos hlt]
  · rw [if_pos hge, if_neg (by omega)]

/-- C3 (counterexample): at startup time 10:00 of day 0 with an enabled
schedule whose check-in time-of-day 09:00 has already elapsed, the
startup produces no immediate catch-up firing at all: the elapsed
occurrence is skipped and the alarm is re-armed for tomorrow 09:00. -/
theorem startup_no_catchup_counterexample :
    todayOccurrence "09:00" 36000000 ≤ 36000000 ∧
    startupImmediateFires ⟨true, "09:00", "17:30"⟩ 36000000 = [] ∧
    createDailyAlarmWhen "09:00" 36000000 = 118800000 := by decide

/-- C3 (amended): on scheduler startup, an enabled schedule is rebuilt
from its stored times-of-day: both alarms are cleared and re-created,
every created alarm is strictly in the future (the elapsed occurrence of
the day is skipped, not fired as a catch-up), and no alarm fires
immediately at startup. -/
theorem startup_rearms_strictly_future (s : Settings) (now : Nat)
    (h : s.autoSchedule = true) :
    loadSettingsOps s now =
      clearScheduleOps ++
        [AlarmOp.create "checkin" (createDailyAlarmWhen s.checkinTime now),
         AlarmOp.create "checkout" (createDailyAlarmWhen s.checkoutTime now)] ∧
    now < createDailyAlarmWhen s.checkinTime now ∧
    now < createDailyAlarmWhen s.checkoutTime now ∧
    startupImmediateFires s now = [] := by
  have hin := now_lt_createDailyAlarmWhen s.checkinTime now
  have hout := now_lt_createDailyAlarmWhen s.checkoutTime now
  refine ⟨by simp [loadSettingsOps, h, setupScheduleOps, createDailyAlarmOp], hin, hout, ?_⟩
  simp [startupImmediateFires, loadSettingsOps, h, setupScheduleOps, createDailyAlarmOp,
        clearScheduleOps, Nat.not_le.mpr hin, Nat.not_le.mpr hout]

/-- Witness for the amended C3 at a concrete startup state. -/
theorem startup_rearms_strictly_future_witness :
    (0 : Nat) < createDailyAlarmWhen "08:00" 0 ∧
    startupImmediateFires ⟨true, "08:00", "18:00"⟩ 0 = [] :=
  ⟨(startup_rearms_strictly_future ⟨true, "08:00", "18:00"⟩ 0 rfl).2.1,
   (startup_rearms_strictly_future ⟨true, "08:00", "18:00"⟩ 0 rfl).2.2.2⟩

/-! ### Scheduled firing resilience -/

/-- C7: For every scheduled firing, whatever the environment does (tab
creation failure, messaging failure, chain exhaustion, or success),
`performScheduledAttendance` returns a plain notice — success or a
logged failure — rather than throwing, and issues no alarm operation,
so the armed daily alarms are left exactly as they were and the
schedule stays armed for the next occurrence. -/
theorem scheduled_fire_preserves_alarms (env : SchedEnv) (ty : String)
    (armed : List (String × Nat)) :
    (performScheduledAttendance env ty).alarmOps = [] ∧
    applyAlarmOps (performScheduledAttendance env ty).alarmOps armed = armed ∧
    ((performScheduledAttendance env ty).notice = SchedNotice.success ty ∨
      ∃ m, (performScheduledAttendance env ty).notice = SchedNotice.failure ty m) := by
  have hops : (performScheduledAttendance env ty).alarmOps = [] := by
    rw [performScheduledAttendance]
    split <;> rfl
  refine ⟨hops, by rw [hops]; rfl, ?_⟩
  rw [performScheduledAttendance]
  split
  · exact Or.inl rfl
  · exact Or.inr ⟨_, rfl⟩

/-! ### Manual trigger guard -/

/-- C10: For every manual trigger from the popup, if the active tab URL
does not contain `people.zoho.com`, `performAttendanceAction` fails with
the error `Please navigate to Zoho People first` and sends no
`performAttendance` message to any tab. -/
theorem manual_trigger_requires_zoho_tab (action : String) (tab : Tab)
    (respond : Request → Except String (Option MsgResponse))
    (h : strContains tab.url "people.zoho.com" = false) :
    performAttendanceAction action tab respond =
      ([], PopupResult.failure "Please navigate to Zoho People first") := by
  rw [performAttendanceAction, if_neg (by simp [h])]

/-- Witness for C10 on a concrete non-Zoho tab. -/
theorem manual_trigger_requires_zoho_tab_witness :
    performAttendanceAction "checkin" ⟨1, "https://example.com/"⟩
        (fun _ => Except.ok none) =
      ([], PopupResult.failure "Please navigate to Zoho People first") :=
  manual_trigger_requires_zoho_tab "checkin" ⟨1, "https://example.com/"⟩
    (fun _ => Except.ok none) (by decide)

end ZohoAttendance
